import Mathlib

/-!
Verification of the earthquake-map visualization engine
(`earthquake_map_widget.cpp/.hpp`, `spatial_utils.cpp`,
`earthquake_map_missing_methods.cpp`).

The development has two layers.

The exact layer works over `ℚ` and embeds every routine whose arithmetic is
rational: the viewport linear transform, bounds computation,
`MapBounds::contains`, the filter predicate, hit-testing, clustering and the
record-set mutations.  The C++ code computes with `double`; the routines
embedded here use only field operations and comparisons, so `ℚ` is a faithful
carrier and every statement is decidable.  Two systematic conventions:

* the code compares `sqrt(dx*dx+dy*dy) <= t`; for `t` this is equivalent to
  `0 ≤ t ∧ dx^2+dy^2 ≤ t^2`, and `sqrt a < sqrt b` (with `a b ≥ 0`) to
  `a < b`; the embeddings state those square-free equivalents;
* in this layer the projection mode is fixed to `Equirectangular`, the one
  projection whose formulas are the identity (hence rational); the remaining
  projections live in the real layer below.

The real layer works over `ℝ` and embeds the projection formulas
(`mercatorProjection`, `unprojectCoordinate`, ...), the magnitude-to-size
formula (`pow`), and the zoom scale factor (`sqrt`), which are transcendental.

Event identifiers are `QString`s in the source, used only for equality tests;
they are modelled by `ℕ`.  `QDateTime` timestamps are modelled by `ℤ` (an
invalid `QDateTime`, as produced by a default-constructed filter bound, is
`Option.none`).  Qt colors are modelled as RGB triples of naturals.
-/

namespace EqMap

/-- Planar point with rational coordinates (QPointF in the exact layer). -/
structure PointQ where
  x : ℚ
  y : ℚ
deriving DecidableEq, Repr

/-- Qt qBound(lo, v, hi) = qMax(lo, qMin(hi, v)). -/
def qBound (lo v hi : ℚ) : ℚ := max lo (min v hi)

/-- SpatialUtils::normalizeLongitude, first loop: `while (lon > 180.0) lon -= 360.0`. -/
def normLonDown (lon : ℚ) : ℚ :=
  if 180 < lon then normLonDown (lon - 360) else lon
termination_by (⌈lon⌉).toNat
decreasing_by
  rename_i h
  have h1 : (180 : ℤ) < ⌈lon⌉ := by
    rw [Int.lt_ceil]; exact_mod_cast h
  have h2 : ⌈lon - 360⌉ = ⌈lon⌉ - 360 := by
    rw [show lon - 360 = lon + ((-360 : ℤ) : ℚ) by push_cast; ring, Int.ceil_add_int]
    omega
  simp only [h2]
  omega

/-- SpatialUtils::normalizeLongitude, second loop: `while (lon < -180.0) lon += 360.0`. -/
def normLonUp (lon : ℚ) : ℚ :=
  if lon < -180 then normLonUp (lon + 360) else lon
termination_by (-⌊lon⌋).toNat
decreasing_by
  rename_i h
  have h1 : ⌊lon⌋ < (-180 : ℤ) := by
    rw [Int.floor_lt]; exact_mod_cast h
  have h2 : ⌊lon + 360⌋ = ⌊lon⌋ + 360 := by
    rw [show lon + 360 = lon + ((360 : ℤ) : ℚ) by push_cast; ring, Int.floor_add_int]
  simp only [h2]
  omega

/-- SpatialUtils::normalizeLongitude: both loops in source order. -/
def normalizeLongitude (lon : ℚ) : ℚ := normLonUp (normLonDown lon)

/-- MapBounds (earthquake_map_widget.hpp). -/
structure MapBounds where
  minLatitude : ℚ
  maxLatitude : ℚ
  minLongitude : ℚ
  maxLongitude : ℚ
deriving DecidableEq, Repr

/-- MapBounds::contains: a plain rectangle test on the stored fields. -/
def MapBounds.contains (b : MapBounds) (lat lon : ℚ) : Bool :=
  b.minLatitude ≤ lat && lat ≤ b.maxLatitude &&
  b.minLongitude ≤ lon && lon ≤ b.maxLongitude

/-- Viewport state of EarthquakeMapWidget: center, zoom and pixel size. -/
structure ViewportQ where
  centerLat : ℚ
  centerLon : ℚ
  zoom : ℚ
  w : ℚ
  h : ℚ
deriving DecidableEq, Repr

/-- EarthquakeMapWidget::latLonToScreen with projection fixed to
Equirectangular, where projectCoordinate is the identity
`(px, py) = (lon, lat)`; the rest is the source's linear transform. -/
def latLonToScreenQ (v : ViewportQ) (lat lon : ℚ) : PointQ :=
  { x := (lon - v.centerLon) * v.zoom * v.w / 360 + v.w / 2
    y := (v.centerLat - lat) * v.zoom * v.h / 180 + v.h / 2 }

/-- EarthquakeMapWidget::screenToLatLon (the source applies no inverse
projection here, only the inverse linear transform, then clamps latitude and
normalizes longitude; it returns QPointF(longitude, latitude)). -/
def screenToLatLonQ (v : ViewportQ) (p : PointQ) : PointQ :=
  { x := normalizeLongitude ((p.x - v.w / 2) * 360 / (v.zoom * v.w) + v.centerLon)
    y := qBound (-90) (v.centerLat - (p.y - v.h / 2) * 180 / (v.zoom * v.h)) 90 }

/-- EarthquakeMapWidget::updateVisibleBounds: projects the two screen corners
back to geographic coordinates and, when the resulting min-longitude exceeds
the max-longitude, adds 360 to the max (longitude wraparound handling). -/
def updateVisibleBounds (v : ViewportQ) : MapBounds :=
  let topLeft := screenToLatLonQ v { x := 0, y := 0 }
  let bottomRight := screenToLatLonQ v { x := v.w, y := v.h }
  let b : MapBounds :=
    { minLatitude := bottomRight.y
      maxLatitude := topLeft.y
      minLongitude := topLeft.x
      maxLongitude := bottomRight.x }
  if b.maxLongitude < b.minLongitude then
    { b with maxLongitude := b.maxLongitude + 360 }
  else b

/-- EarthquakeData: the fields the verified routines read. -/
structure EarthquakeDataQ where
  eventId : ℕ
  latitude : ℚ
  longitude : ℚ
  magnitude : ℚ
  depth : ℚ
  timestamp : ℤ
deriving DecidableEq, Repr

/-- RGB color triple (QColor). -/
structure ColorQ where
  r : ℕ
  g : ℕ
  b : ℕ
deriving DecidableEq, Repr

/-- EarthquakeMapWidget::getMagnitudeColor: magnitude buckets at 1-point
intervals. -/
def getMagnitudeColor (magnitude : ℚ) : ColorQ :=
  if magnitude < 1 then { r := 200, g := 255, b := 200 }
  else if magnitude < 2 then { r := 150, g := 255, b := 150 }
  else if magnitude < 3 then { r := 100, g := 255, b := 100 }
  else if magnitude < 4 then { r := 255, g := 255, b := 100 }
  else if magnitude < 5 then { r := 255, g := 200, b := 100 }
  else if magnitude < 6 then { r := 255, g := 150, b := 100 }
  else if magnitude < 7 then { r := 255, g := 100, b := 100 }
  else if magnitude < 8 then { r := 200, g := 50, b := 50 }
  else { r := 150, g := 0, b := 150 }

/-- Filter state members of EarthquakeMapWidget (m_minMagnitude ...
m_hasLocationFilter, m_locationFilter).  An invalid QDateTime bound is
`none`. -/
structure FilterStateQ where
  minMagnitude : ℚ
  maxMagnitude : ℚ
  minDepth : ℚ
  maxDepth : ℚ
  startTime : Option ℤ
  endTime : Option ℤ
  hasLocationFilter : Bool
  locationFilter : MapBounds
deriving DecidableEq, Repr

/-- `m_startTime.isValid() && earthquake.timestamp < m_startTime`. -/
def timeBeforeStart (f : FilterStateQ) (d : EarthquakeDataQ) : Bool :=
  match f.startTime with
  | some s => d.timestamp < s
  | none => false

/-- `m_endTime.isValid() && earthquake.timestamp > m_endTime`. -/
def timeAfterEnd (f : FilterStateQ) (d : EarthquakeDataQ) : Bool :=
  match f.endTime with
  | some e => e < d.timestamp
  | none => false

/-- EarthquakeMapWidget::passesFilters: the source's early-return chain of
magnitude, depth, time, and location tests. -/
def passesFilters (f : FilterStateQ) (d : EarthquakeDataQ) : Bool :=
  if d.magnitude < f.minMagnitude || f.maxMagnitude < d.magnitude then false
  else if d.depth < f.minDepth || f.maxDepth < d.depth then false
  else if timeBeforeStart f d then false
  else if timeAfterEnd f d then false
  else if f.hasLocationFilter && !(f.locationFilter.contains d.latitude d.longitude) then false
  else true

/-- EarthquakeMapWidget::isEarthquakeVisible: bounds containment only. -/
def isEarthquakeVisible (b : MapBounds) (d : EarthquakeDataQ) : Bool :=
  b.contains d.latitude d.longitude

/-- VisualEarthquake: the derived marker state the verified routines touch.
The source stores clusterId as an int with -1 meaning unclustered; that
convention is kept. -/
structure VisualEarthquakeQ where
  data : EarthquakeDataQ
  screenPos : PointQ
  displaySize : ℚ
  displayColor : ColorQ
  isVisible : Bool
  isSelected : Bool
  clusterId : ℤ
deriving DecidableEq, Repr

/-- EarthquakeMapWidget::updateVisibleEarthquakes: recomputes, for every
marker, screen position, visibility (bounds test AND filters), display size
and display color from its record.  `sizeFn`/`colorFn` stand for
getEarthquakeSize/getEarthquakeColor, whose arithmetic is transcendental and
is treated in the real layer. -/
def updateVisibleEarthquakes (v : ViewportQ) (b : MapBounds) (f : FilterStateQ)
    (sizeFn : EarthquakeDataQ → ℚ) (colorFn : EarthquakeDataQ → ColorQ)
    (markers : List VisualEarthquakeQ) : List VisualEarthquakeQ :=
  markers.map fun m =>
    { m with
      screenPos := latLonToScreenQ v m.data.latitude m.data.longitude
      isVisible := isEarthquakeVisible b m.data && passesFilters f m.data
      displaySize := sizeFn m.data
      displayColor := colorFn m.data }

/-- EarthquakeMapWidget::updateEarthquake
(earthquake_map_missing_methods.cpp): finds the first marker whose record has
the given event id and overwrites its record, display size, display color and
visibility (bounds test only), leaving every other field - in particular
screenPos - untouched. -/
def updateEarthquake (b : MapBounds)
    (sizeFn : EarthquakeDataQ → ℚ) (colorFn : EarthquakeDataQ → ColorQ)
    (newData : EarthquakeDataQ) :
    List VisualEarthquakeQ → List VisualEarthquakeQ
  | [] => []
  | m :: rest =>
    if m.data.eventId = newData.eventId then
      { m with
        data := newData
        displaySize := sizeFn newData
        displayColor := colorFn newData
        isVisible := isEarthquakeVisible b newData } :: rest
    else m :: updateEarthquake b sizeFn colorFn newData rest

/-- The marker-removal loop of EarthquakeMapWidget::removeEarthquake: erase
the first marker whose record has the given event id (the source breaks after
the first hit). -/
def removeFirstMarker (eventId : ℕ) :
    List VisualEarthquakeQ → List VisualEarthquakeQ
  | [] => []
  | m :: rest =>
    if m.data.eventId = eventId then rest
    else m :: removeFirstMarker eventId rest

/-- EarthquakeMapWidget::removeEarthquake: removes the first matching marker
and removes every occurrence of the id from m_selectedIds
(QList::removeAll). -/
def removeEarthquake (eventId : ℕ) (markers : List VisualEarthquakeQ)
    (selectedIds : List ℕ) : List VisualEarthquakeQ × List ℕ :=
  (removeFirstMarker eventId markers, selectedIds.filter (fun s => s ≠ eventId))

/-- Squared Euclidean screen distance between two points.  The source computes
`sqrt(dx*dx + dy*dy)`; every use compares it against a threshold, so the
embeddings compare squares instead (see the header comment). -/
def dist2 (p q : PointQ) : ℚ := (p.x - q.x) ^ 2 + (p.y - q.y) ^ 2

/-- EarthquakeMapWidget::shouldCluster:
`sqrt(dx^2 + dy^2) <= m_settings.clusterDistance`, stated square-free:
a nonnegative square root is at most `d` iff `d` is nonnegative and the
radicand is at most `d^2`. -/
def shouldCluster (e1 e2 : VisualEarthquakeQ) (d : ℚ) : Bool :=
  0 ≤ d && dist2 e1.screenPos e2.screenPos ≤ d ^ 2

/-- The outer loop of EarthquakeMapWidget::updateClusters over the enumerated
marker list.  `clustered` is the set of indices already absorbed by an earlier
pass.  For each unvisited visible marker `i` the inner loop collects the
not-yet-clustered visible markers at index `j > i` whose distance TO MARKER
`i` is within the threshold (the source checks `shouldCluster(eq[i], eq[j])`,
not distance to previously collected members); a group of two or more becomes
a cluster. -/
def clusterPasses (d : ℚ) :
    List (ℕ × VisualEarthquakeQ) → List ℕ → List (List ℕ) → List (List ℕ)
  | [], _, acc => acc
  | (i, m) :: rest, clustered, acc =>
    if clustered.contains i || !m.isVisible then
      clusterPasses d rest clustered acc
    else
      let nbrs := (rest.filter fun im =>
        !clustered.contains im.1 && im.2.isVisible && shouldCluster m im.2 d).map Prod.fst
      let members := i :: nbrs
      if 1 < members.length then
        clusterPasses d rest (clustered ++ members) (acc ++ [members])
      else
        clusterPasses d rest (clustered ++ members) acc

/-- EarthquakeMapWidget::updateClusters: clears all cluster ids (via
clearClusters), runs the pass loop, and writes, for every member of the k-th
created cluster, clusterId := k; markers in no created cluster keep -1.
Returns the updated markers and the member lists of the created clusters. -/
def updateClusters (markers : List VisualEarthquakeQ) (d : ℚ) :
    List VisualEarthquakeQ × List (List ℕ) :=
  let comps := clusterPasses d markers.enum [] []
  (markers.enum.map fun im =>
    match comps.findIdx? (fun c => c.contains im.1) with
    | some k => { im.2 with clusterId := (k : ℤ) }
    | none => { im.2 with clusterId := -1 },
   comps)

/-- The candidate test inside EarthquakeMapWidget::findEarthquakeAt: the
marker is visible and the distance from the query point to its screen
position is within `getScaledSize(displaySize)/2 + 5` (5 px tolerance),
stated square-free.  `scale` stands for the factor
`qBound(0.5, sqrt(m_zoomLevel), 3.0)` of getScaledSize, computed in the real
layer. -/
def hitCandidate (scale : ℚ) (p : PointQ) (m : VisualEarthquakeQ) : Bool :=
  let thr := scale * m.displaySize / 2 + 5
  m.isVisible && 0 ≤ thr && dist2 p m.screenPos ≤ thr ^ 2

/-- The loop of EarthquakeMapWidget::findEarthquakeAt: scan markers in order,
keeping the index and (squared) distance of the best candidate so far; a
candidate replaces the best only when strictly closer (`distance <
minDistance` in the source). -/
def findLoop (scale : ℚ) (p : PointQ) :
    List (ℕ × VisualEarthquakeQ) → Option (ℕ × ℚ) → Option (ℕ × ℚ)
  | [], best => best
  | (i, m) :: rest, best =>
    if hitCandidate scale p m &&
        (match best with
         | none => true
         | some kd => dist2 p m.screenPos < kd.2) then
      findLoop scale p rest (some (i, dist2 p m.screenPos))
    else
      findLoop scale p rest best

/-- EarthquakeMapWidget::findEarthquakeAt: index of the qualifying visible
marker of minimum screen distance (the source returns -1 when none
qualifies; that sentinel is `none` here). -/
def findEarthquakeAt (markers : List VisualEarthquakeQ) (scale : ℚ)
    (p : PointQ) : Option ℕ :=
  (findLoop scale p markers.enum none).map Prod.fst

/-! The real layer: projection formulas and the transcendental size/scale
functions, embedded over `ℝ`. -/

open Real

/-- MapProjection (earthquake_map_widget.hpp). -/
inductive MapProjection
  | Mercator
  | Equirectangular
  | OrthographicNorthPole
  | OrthographicSouthPole
  | Robinson
deriving DecidableEq, Repr

/-- Qt qBound over the reals. -/
noncomputable def qBoundR (lo v hi : ℝ) : ℝ := max lo (min v hi)

/-- EarthquakeMapWidget::mercatorProjection: `x = lon`; for `|lat| < 85`,
`y = log(tan(pi/4 + latRad/2)) * 180/pi`, otherwise y is pinned to +-85 to
avoid the pole singularity. -/
noncomputable def mercatorProjection (lat lon : ℝ) : ℝ × ℝ :=
  (lon,
   if |lat| < 85 then Real.log (Real.tan (π / 4 + lat * π / 180 / 2)) * 180 / π
   else if 0 < lat then 85 else -85)

/-- EarthquakeMapWidget::equirectangularProjection: the identity. -/
def equirectangularProjection (lat lon : ℝ) : ℝ × ℝ := (lon, lat)

/-- EarthquakeMapWidget::orthographicProjection (pole-centered). -/
noncomputable def orthographicProjection (lat lon : ℝ) (northPole : Bool) : ℝ × ℝ :=
  let latRad := lat * π / 180
  let lonRad := lon * π / 180
  let centerLatRad := (if northPole then (90 : ℝ) else -90) * π / 180
  (Real.cos latRad * Real.sin lonRad * 180,
   (Real.cos centerLatRad * Real.sin latRad -
    Real.sin centerLatRad * Real.cos latRad * Real.cos lonRad) * 180)

/-- EarthquakeMapWidget::robinsonProjection (simplified). -/
noncomputable def robinsonProjection (lat lon : ℝ) : ℝ × ℝ :=
  (lon * Real.cos (lat * π / 180 * 0.6), lat * 1.3)

/-- EarthquakeMapWidget::projectCoordinate: dispatch on the active
projection. -/
noncomputable def projectCoordinate (mode : MapProjection) (lat lon : ℝ) : ℝ × ℝ :=
  match mode with
  | .Mercator => mercatorProjection lat lon
  | .Equirectangular => equirectangularProjection lat lon
  | .OrthographicNorthPole => orthographicProjection lat lon true
  | .OrthographicSouthPole => orthographicProjection lat lon false
  | .Robinson => robinsonProjection lat lon

/-- EarthquakeMapWidget::unprojectCoordinate
(earthquake_map_missing_methods.cpp): inverse Mercator via
`2*atan(exp(y*pi/180)) - pi/2`; identity for Equirectangular; the remaining
modes fall through to the identity ("Simplified" in the source). -/
noncomputable def unprojectCoordinate (mode : MapProjection) (p : ℝ × ℝ) : ℝ × ℝ :=
  match mode with
  | .Mercator => (p.1, (2 * Real.arctan (Real.exp (p.2 * π / 180)) - π / 2) * 180 / π)
  | _ => p

/-- Viewport state plus the active projection, over `ℝ`. -/
structure MapViewR where
  centerLat : ℝ
  centerLon : ℝ
  zoom : ℝ
  w : ℝ
  h : ℝ
  projection : MapProjection

/-- EarthquakeMapWidget::latLonToScreen: project, then the linear transform
to screen pixels. -/
noncomputable def latLonToScreenR (v : MapViewR) (lat lon : ℝ) : ℝ × ℝ :=
  let pr := projectCoordinate v.projection lat lon
  ((pr.1 - v.centerLon) * v.zoom * v.w / 360 + v.w / 2,
   (v.centerLat - pr.2) * v.zoom * v.h / 180 + v.h / 2)

/-- SpatialUtils::normalizeLongitude over `ℝ`, first loop. -/
noncomputable def normLonDownR (lon : ℝ) : ℝ :=
  if 180 < lon then normLonDownR (lon - 360) else lon
termination_by (⌈lon⌉).toNat
decreasing_by
  rename_i h
  have h1 : (180 : ℤ) < ⌈lon⌉ := by
    rw [Int.lt_ceil]; exact_mod_cast h
  have h2 : ⌈lon - 360⌉ = ⌈lon⌉ - 360 := by
    rw [show lon - 360 = lon + ((-360 : ℤ) : ℝ) by push_cast; ring, Int.ceil_add_int]
    omega
  simp only [h2]
  omega

/-- SpatialUtils::normalizeLongitude over `ℝ`, second loop. -/
noncomputable def normLonUpR (lon : ℝ) : ℝ :=
  if lon < -180 then normLonUpR (lon + 360) else lon
termination_by (-⌊lon⌋).toNat
decreasing_by
  rename_i h
  have h1 : ⌊lon⌋ < (-180 : ℤ) := by
    rw [Int.floor_lt]; exact_mod_cast h
  have h2 : ⌊lon + 360⌋ = ⌊lon⌋ + 360 := by
    rw [show lon + 360 = lon + ((360 : ℤ) : ℝ) by push_cast; ring, Int.floor_add_int]
  simp only [h2]
  omega

/-- SpatialUtils::normalizeLongitude over `ℝ`. -/
noncomputable def normalizeLongitudeR (lon : ℝ) : ℝ := normLonUpR (normLonDownR lon)

/-- EarthquakeMapWidget::screenToLatLon: the inverse of the LINEAR transform
only (no inverse projection), then latitude clamp and longitude
normalization; returns QPointF(longitude, latitude). -/
noncomputable def screenToLatLonR (v : MapViewR) (p : ℝ × ℝ) : ℝ × ℝ :=
  (normalizeLongitudeR ((p.1 - v.w / 2) * 360 / (v.zoom * v.w) + v.centerLon),
   qBoundR (-90) (v.centerLat - (p.2 - v.h / 2) * 180 / (v.zoom * v.h)) 90)

/-- EarthquakeMapWidget::getEarthquakeSize: reads only the record's
magnitude; `DEFAULT_EARTHQUAKE_SIZE = 8`, then
`qBound(3, 8 * 2^((magnitude-3)/2), 50)`. -/
noncomputable def getEarthquakeSize (magnitude : ℝ) : ℝ :=
  qBoundR 3 (8 * (2 : ℝ) ^ ((magnitude - 3) / 2)) 50

/-- EarthquakeMapWidget::getScaledSize:
`baseSize * qBound(0.5, sqrt(m_zoomLevel), 3.0)`. -/
noncomputable def getScaledSize (zoom baseSize : ℝ) : ℝ :=
  baseSize * qBoundR 0.5 (Real.sqrt zoom) 3

/-! Concrete inputs used in the closed statements below. -/

/-- A record with the given id and coordinates; magnitude 5, depth 10. -/
def sampleData (id : ℕ) (lat lon : ℚ) : EarthquakeDataQ :=
  { eventId := id, latitude := lat, longitude := lon
    magnitude := 5, depth := 10, timestamp := 0 }

/-- A visible marker with the given id, screen position and display size. -/
def sampleMarker (id : ℕ) (px py size : ℚ) : VisualEarthquakeQ :=
  { data := sampleData id 0 0
    screenPos := { x := px, y := py }
    displaySize := size
    displayColor := getMagnitudeColor 5
    isVisible := true
    isSelected := false
    clusterId := -1 }

/-- Three visible markers in a row on screen, 50 px apart: a chain under
cluster threshold 50. -/
def chainMarkers : List VisualEarthquakeQ :=
  [sampleMarker 0 0 0 8, sampleMarker 1 50 0 8, sampleMarker 2 100 0 8]

/-- A seam-crossing viewport: centered on longitude 180 at zoom 4,
800 x 600 px, so the view spans longitudes 135..225. -/
def seamViewport : ViewportQ :=
  { centerLat := 0, centerLon := 180, zoom := 4, w := 800, h := 600 }

/-- Two visible markers equidistant (10 px) from the origin, display size
20. -/
def tieMarkers : List VisualEarthquakeQ :=
  [sampleMarker 0 10 0 20, sampleMarker 1 (-10) 0 20]

/-- One visible marker 12 px from the origin with display size 10. -/
def farMarker : List VisualEarthquakeQ :=
  [sampleMarker 0 12 0 10]

/-- A 0 x 0 viewport (the widget before it is given a size). -/
def zeroViewport : ViewportQ :=
  { centerLat := 0, centerLon := 0, zoom := 1, w := 0, h := 0 }

/-- An 800 x 600 viewport centered at (0, 0), zoom 1. -/
def plainViewport : ViewportQ :=
  { centerLat := 0, centerLon := 0, zoom := 1, w := 800, h := 600 }

/-- An 800 x 600 view centered at (0, 0), zoom 1, Mercator projection. -/
noncomputable def mercatorView : MapViewR :=
  { centerLat := 0, centerLon := 0, zoom := 1, w := 800, h := 600
    projection := .Mercator }

/-- An 800 x 600 view centered at (0, 0), zoom 1, Equirectangular
projection. -/
noncomputable def equirectView : MapViewR :=
  { centerLat := 0, centerLon := 0, zoom := 1, w := 800, h := 600
    projection := .Equirectangular }

/-- EarthquakeMapWidget::MIN_ZOOM. -/
def MIN_ZOOM : ℚ := 0.1

/-- EarthquakeMapWidget::MAX_ZOOM. -/
def MAX_ZOOM : ℚ := 50

/-- The clamp on the first line of EarthquakeMapWidget::setZoomLevel:
`qBound(MIN_ZOOM, zoom, MAX_ZOOM)`. -/
def setZoomClamp (zoom : ℚ) : ℚ := qBound MIN_ZOOM zoom MAX_ZOOM

/-- A marker for record 7 at (lat 10, lon 20) whose derived screen position
is consistent with `plainViewport`. -/
def consistentMarker : VisualEarthquakeQ :=
  { data := sampleData 7 10 20
    screenPos := latLonToScreenQ plainViewport 10 20
    displaySize := 8
    displayColor := getMagnitudeColor 5
    isVisible := true
    isSelected := false
    clusterId := -1 }

end EqMap

/-! Helper lemmas about the normalizeLongitude loops. -/

namespace EqMap

theorem normLonDown_id {lon : ℚ} (h : lon ≤ 180) : normLonDown lon = lon := by
  rw [normLonDown]
  exact if_neg (by linarith)

theorem normLonDown_step {lon : ℚ} (h : 180 < lon) :
    normLonDown lon = normLonDown (lon - 360) := by
  rw [normLonDown]
  exact if_pos h

theorem normLonUp_id {lon : ℚ} (h : -180 ≤ lon) : normLonUp lon = lon := by
  rw [normLonUp]
  exact if_neg (by linarith)

theorem normalizeLongitude_id {lon : ℚ} (h1 : -180 ≤ lon) (h2 : lon ≤ 180) :
    normalizeLongitude lon = lon := by
  rw [normalizeLongitude, normLonDown_id h2, normLonUp_id h1]

theorem normalizeLongitude_wrap {lon : ℚ} (h1 : 180 < lon) (h2 : lon ≤ 540) :
    normalizeLongitude lon = lon - 360 := by
  rw [normalizeLongitude, normLonDown_step h1, normLonDown_id (by linarith),
    normLonUp_id (by linarith)]

theorem normLonDownR_id {lon : ℝ} (h : lon ≤ 180) : normLonDownR lon = lon := by
  rw [normLonDownR]
  exact if_neg (by linarith)

theorem normLonUpR_id {lon : ℝ} (h : -180 ≤ lon) : normLonUpR lon = lon := by
  rw [normLonUpR]
  exact if_neg (by linarith)

theorem normalizeLongitudeR_id {lon : ℝ} (h1 : -180 ≤ lon) (h2 : lon ≤ 180) :
    normalizeLongitudeR lon = lon := by
  rw [normalizeLongitudeR, normLonDownR_id h2, normLonUpR_id h1]

end EqMap

namespace EqMap

/-- Claim C1.  The claim states that clustering partitions the visible
markers into the connected components of the distance-≤-d graph, so the three
chain markers (0,0), (50,0), (100,0) with d = 50 would form one component
(markers 0 and 2 joined through 1) and share one clusterId.  The code instead
runs a pairwise scan against the seed marker only: it creates the cluster
{0, 1} and leaves marker 2 unclustered (clusterId -1), although both chain
links are within the threshold. -/
theorem updateClusters_chain_eval :
    (updateClusters chainMarkers 50).1.map (·.clusterId) = [0, 0, -1] ∧
    (updateClusters chainMarkers 50).2 = [[0, 1]] ∧
    shouldCluster (sampleMarker 0 0 0 8) (sampleMarker 1 50 0 8) 50 = true ∧
    shouldCluster (sampleMarker 1 50 0 8) (sampleMarker 2 100 0 8) 50 = true := by
  refine ⟨?_, ?_, ?_, ?_⟩ <;>
    norm_num [updateClusters, clusterPasses, chainMarkers, sampleMarker, sampleData,
      shouldCluster, dist2, List.enum, List.enumFrom, List.contains, List.filter,
      List.findIdx?]

/-- Claim C4.  For the seam-crossing viewport (center longitude 180, zoom 4,
800 x 600) the two corner longitudes come out as 135 and -135, the computed
min-longitude 135 exceeds the max-longitude -135, and updateVisibleBounds
stores the interval [135, 225].  The record at longitude -170 is inside the
wrapped interval (135 ≤ -170 + 360 ≤ 225), yet MapBounds::contains tests the
raw interval against the normalized longitude and reports it NOT contained:
the containment test does not accept the wrapped interval, contrary to the
claim. -/
theorem seam_bounds_eval :
    (screenToLatLonQ seamViewport { x := 0, y := 0 }).x = 135 ∧
    (screenToLatLonQ seamViewport { x := 800, y := 600 }).x = -135 ∧
    updateVisibleBounds seamViewport =
      { minLatitude := -22.5, maxLatitude := 22.5
        minLongitude := 135, maxLongitude := 225 } ∧
    ((135 : ℚ) ≤ -170 + 360 ∧ (-170 : ℚ) + 360 ≤ 225) ∧
    (updateVisibleBounds seamViewport).contains 0 (-170) = false := by
  refine ⟨?_, ?_, ?_, by norm_num, ?_⟩ <;>
    norm_num [updateVisibleBounds, screenToLatLonQ, seamViewport, qBound,
      MapBounds.contains, normalizeLongitude_id, normalizeLongitude_wrap]

/-- Claim C9.  The claim states that for a zero-size or zero-zoom viewport
the engine refuses to compute screen coordinates and reports no geometry.
The code has no such guard: latLonToScreen on a 0 x 0 viewport still computes
and returns the point (0, 0) for every input (here (lat 10, lon 20)).  The
only related protection is that setZoomLevel clamps the zoom into
[MIN_ZOOM, MAX_ZOOM] = [0.1, 50], so a zero zoom cannot be set through the
setter. -/
theorem zero_viewport_eval :
    latLonToScreenQ zeroViewport 10 20 = { x := 0, y := 0 } ∧
    setZoomClamp 0 = MIN_ZOOM ∧
    (∀ z : ℚ, MIN_ZOOM ≤ setZoomClamp z) := by
  refine ⟨?_, ?_, fun z => ?_⟩
  · norm_num [latLonToScreenQ, zeroViewport]
  · norm_num [setZoomClamp, qBound, MIN_ZOOM, MAX_ZOOM]
  · simp only [setZoomClamp, qBound]
    exact le_max_left _ _

end EqMap

namespace EqMap

/-- Claim C8.  The claim states that updating a record in place leaves no
stale derived marker state.  EarthquakeMapWidget::updateEarthquake overwrites
the record and recomputes displaySize, displayColor and the bounds-visibility
flag, but not screenPos: after moving record 7 from (lat 10, lon 20) to
(lat 30, lon 40) the marker still carries the screen mapping of (10, 20),
which differs from the mapping of (30, 40) - the derived state has drifted
from the source record. -/
theorem updateEarthquake_stale_screenPos
    (sizeFn : EarthquakeDataQ → ℚ) (colorFn : EarthquakeDataQ → ColorQ) :
    updateEarthquake (updateVisibleBounds plainViewport) sizeFn colorFn
        (sampleData 7 30 40) [consistentMarker] =
      [{ data := sampleData 7 30 40
         screenPos := latLonToScreenQ plainViewport 10 20
         displaySize := sizeFn (sampleData 7 30 40)
         displayColor := colorFn (sampleData 7 30 40)
         isVisible := isEarthquakeVisible (updateVisibleBounds plainViewport)
           (sampleData 7 30 40)
         isSelected := false
         clusterId := -1 }] ∧
    latLonToScreenQ plainViewport 10 20 ≠ latLonToScreenQ plainViewport 30 40 := by
  constructor
  · simp [updateEarthquake, consistentMarker, sampleData]
  · intro h
    have hx := congrArg PointQ.x h
    norm_num [latLonToScreenQ, plainViewport] at hx

/-- The two ways of writing a clamp agree: `qMax lo (qMin v hi)` equals
`qMin (qMax v lo) hi` whenever `lo ≤ hi`. -/
theorem qBoundR_eq_clamp {lo hi : ℝ} (v : ℝ) (h : lo ≤ hi) :
    qBoundR lo v hi = min (max v lo) hi := by
  unfold qBoundR
  rcases le_total v lo with h1 | h1 <;> rcases le_total v hi with h2 | h2 <;>
    simp [max_eq_left, max_eq_right, min_eq_left, min_eq_right, *]
  linarith

/-- Claim C7.  getEarthquakeSize is the clamp
`clamp(8 * 2^((magnitude-3)/2), 3, 50)`, the on-screen size is that value
times `clamp(sqrt(zoom), 0.5, 3.0)`, and a magnitude 9.5 record clamps to
the maximum size 50 (since `8 * 2^3.25 ≥ 64 > 50`). -/
theorem getEarthquakeSize_formula :
    (∀ m : ℝ, getEarthquakeSize m = min (max (8 * (2 : ℝ) ^ ((m - 3) / 2)) 3) 50) ∧
    (∀ z b : ℝ, getScaledSize z b = b * min (max (Real.sqrt z) 0.5) 3) ∧
    getEarthquakeSize 9.5 = 50 := by
  refine ⟨fun m => qBoundR_eq_clamp _ (by norm_num),
    fun z b => by rw [getScaledSize, qBoundR_eq_clamp _ (by norm_num)], ?_⟩
  have h3 : ((9.5 : ℝ) - 3) / 2 = 3.25 := by norm_num
  have h8 : (8 : ℝ) ≤ (2 : ℝ) ^ ((3.25 : ℝ)) := by
    have h23 : (2 : ℝ) ^ ((3 : ℝ)) ≤ (2 : ℝ) ^ ((3.25 : ℝ)) :=
      (Real.rpow_le_rpow_left_iff (by norm_num)).mpr (by norm_num)
    have h2n : (2 : ℝ) ^ ((3 : ℝ)) = 8 := by
      rw [show (3 : ℝ) = ((3 : ℕ) : ℝ) by norm_num, Real.rpow_natCast]
      norm_num
    linarith
  have h50 : (50 : ℝ) ≤ 8 * (2 : ℝ) ^ (((9.5 : ℝ) - 3) / 2) := by
    rw [h3]
    nlinarith
  rw [getEarthquakeSize, qBoundR, min_eq_right h50]
  norm_num

end EqMap

namespace EqMap

/-- Claim C2 counterexample.  In Mercator mode the claim fails: for the
in-range input (lat 86, lon 0) - the code pins the Mercator y of any
|lat| ≥ 85 to ±85 - screenToLatLon applied to latLonToScreen returns
latitude 85, not 86, because screenToLatLon inverts only the linear screen
transform and never applies the inverse projection. -/
theorem screenToLatLon_mercator_counterexample :
    screenToLatLonR mercatorView (latLonToScreenR mercatorView 86 0) =
      ((0 : ℝ), (85 : ℝ)) ∧
    screenToLatLonR mercatorView (latLonToScreenR mercatorView 86 0) ≠
      ((0 : ℝ), (86 : ℝ)) := by
  have hproj : projectCoordinate MapProjection.Mercator 86 0 = ((0 : ℝ), 85) := by
    unfold projectCoordinate mercatorProjection
    rw [if_neg (by norm_num), if_pos (by norm_num)]
  have heval : screenToLatLonR mercatorView (latLonToScreenR mercatorView 86 0) =
      ((0 : ℝ), (85 : ℝ)) := by
    unfold latLonToScreenR screenToLatLonR
    rw [show mercatorView.projection = MapProjection.Mercator from rfl, hproj]
    have hx : (((0 : ℝ) - mercatorView.centerLon) * mercatorView.zoom * mercatorView.w
        / 360 + mercatorView.w / 2 - mercatorView.w / 2) * 360 /
        (mercatorView.zoom * mercatorView.w) + mercatorView.centerLon = 0 := by
      norm_num [mercatorView]
    have hy : mercatorView.centerLat - ((mercatorView.centerLat - (85 : ℝ)) *
        mercatorView.zoom * mercatorView.h / 180 + mercatorView.h / 2 -
        mercatorView.h / 2) * 180 / (mercatorView.zoom * mercatorView.h) = 85 := by
      norm_num [mercatorView]
    simp only [hx, hy]
    rw [normalizeLongitudeR_id (by norm_num) (by norm_num)]
    unfold qBoundR
    norm_num
  refine ⟨heval, ?_⟩
  rw [heval]
  intro h
  have := congrArg Prod.snd h
  norm_num at this

/-- Claim C2 amended.  screenToLatLon inverts only the linear viewport
transform, so it is a two-sided inverse of latLonToScreen exactly when the
active projection is the identity: in Equirectangular mode, for any viewport
with positive zoom and size, a point with latitude in [-90, 90] and longitude
in [-180, 180] round-trips exactly (the final latitude clamp and longitude
normalization fix the in-range value).  In the other modes screenToLatLon
returns the clamped PROJECTED coordinate, as the counterexample shows. -/
theorem screenToLatLon_inverse_equirect (v : MapViewR) (lat lon : ℝ)
    (hproj : v.projection = MapProjection.Equirectangular)
    (hz : 0 < v.zoom) (hw : 0 < v.w) (hh : 0 < v.h)
    (hlat1 : -90 ≤ lat) (hlat2 : lat ≤ 90)
    (hlon1 : -180 ≤ lon) (hlon2 : lon ≤ 180) :
    screenToLatLonR v (latLonToScreenR v lat lon) = (lon, lat) := by
  unfold latLonToScreenR screenToLatLonR projectCoordinate
  rw [hproj]
  simp only [equirectangularProjection]
  have hx : ((lon - v.centerLon) * v.zoom * v.w / 360 + v.w / 2 - v.w / 2) * 360 /
      (v.zoom * v.w) + v.centerLon = lon := by
    field_simp
    ring
  have hy : v.centerLat - ((v.centerLat - lat) * v.zoom * v.h / 180 + v.h / 2 -
      v.h / 2) * 180 / (v.zoom * v.h) = lat := by
    field_simp
    ring
  rw [hx, hy, normalizeLongitudeR_id hlon1 hlon2]
  unfold qBoundR
  rw [min_eq_left hlat2, max_eq_right hlat1]

/-- Witness for the amended C2 statement at a concrete input. -/
theorem screenToLatLon_inverse_equirect_witness :
    screenToLatLonR equirectView (latLonToScreenR equirectView 10 20) =
      ((20 : ℝ), (10 : ℝ)) :=
  screenToLatLon_inverse_equirect equirectView 10 20 rfl
    (by norm_num [equirectView]) (by norm_num [equirectView])
    (by norm_num [equirectView]) (by norm_num) (by norm_num) (by norm_num)
    (by norm_num)

end EqMap

namespace EqMap

open Real

/-- Claim C3 counterexample.  The claim includes lat = 85, but there
mercatorProjection takes the pole-clamp branch (the guard is `|lat| < 85`,
false at 85) and stores y = 85, while unprojectCoordinate computes the true
inverse Gudermannian of 85, which is about 64.4 degrees: the round trip is off
by far more than 1e-6 degrees.  (For |lat| < 85 the round trip is exact; see
the amended statement.) -/
theorem mercator_roundtrip_85_counterexample :
    projectCoordinate MapProjection.Mercator 85 0 = ((0 : ℝ), (85 : ℝ)) ∧
    (unprojectCoordinate MapProjection.Mercator
        (projectCoordinate MapProjection.Mercator 85 0)).2 < 85 - 1e-6 := by
  have hproj : projectCoordinate MapProjection.Mercator 85 0 = ((0 : ℝ), 85) := by
    unfold projectCoordinate mercatorProjection
    rw [if_neg (by norm_num), if_pos (by norm_num)]
  refine ⟨hproj, ?_⟩
  rw [hproj]
  unfold unprojectCoordinate
  have hpi1 : (3.14 : ℝ) < π := Real.pi_gt_d2
  have hpi2 : π < 3.15 := Real.pi_lt_d2
  have hpi0 : (0 : ℝ) < π := Real.pi_pos
  set c : ℝ := 85 * π / 180 with hc
  set L : ℝ := (5 + 1e-6) * π / 360 with hL
  have hL0 : 0 < L := by positivity
  have hLlt : L < 0.04376 := by
    rw [hL]; nlinarith
  have hcos : (0.999 : ℝ) < Real.cos L := by
    have h1 : 1 - L ^ 2 / 2 ≤ Real.cos L := Real.one_sub_sq_div_two_le_cos
    nlinarith
  have hsin : Real.sin L < L := Real.sin_lt hL0
  have htanlt : Real.tan L < 0.0438 := by
    rw [Real.tan_eq_sin_div_cos, div_lt_iff₀ (by linarith)]
    nlinarith
  have hexp : (0.0438 : ℝ) < Real.exp (-c) := by
    have h1 : c ≤ 1.5 := by rw [hc]; nlinarith
    have h2 : Real.exp (-(1.5 : ℝ)) ≤ Real.exp (-c) := Real.exp_le_exp.mpr (by linarith)
    have h3 : Real.exp (1.5 : ℝ) < 7.39 := by
      have h4 : Real.exp (1.5 : ℝ) < Real.exp 2 := Real.exp_lt_exp.mpr (by norm_num)
      have h5 : Real.exp (2 : ℝ) = Real.exp 1 * Real.exp 1 := by
        rw [← Real.exp_add]; norm_num
      have h6 := Real.exp_one_lt_d9
      have h7 := Real.exp_pos 1
      nlinarith
    have h8 : (0.0438 : ℝ) < Real.exp (-(1.5 : ℝ)) := by
      rw [Real.exp_neg]
      have h9 := Real.exp_pos (1.5 : ℝ)
      rw [lt_inv_comm₀ (by norm_num) h9]
      calc Real.exp (1.5 : ℝ) < 7.39 := h3
        _ < 0.0438⁻¹ := by norm_num
    linarith
  have harctan : L < Real.arctan (Real.exp (-c)) := by
    have hL2 : L < π / 2 := by linarith
    calc L = Real.arctan (Real.tan L) := (Real.arctan_tan (by linarith) hL2).symm
      _ < Real.arctan (Real.exp (-c)) := Real.arctan_strictMono (by linarith)
  have hsplit : Real.arctan (Real.exp ((85 : ℝ) * π / 180)) =
      π / 2 - Real.arctan (Real.exp (-c)) := by
    have h1 := Real.arctan_inv_of_pos (Real.exp_pos c)
    rw [← Real.exp_neg] at h1
    rw [hc] at h1 ⊢
    linarith
  simp only
  rw [hsplit]
  have hfin : (2 * (π / 2 - Real.arctan (Real.exp (-c))) - π / 2) * 180 / π =
      90 - 360 * Real.arctan (Real.exp (-c)) / π := by
    field_simp
    ring
  rw [hfin]
  have h360 : (5 + 1e-6 : ℝ) < 360 * Real.arctan (Real.exp (-c)) / π := by
    rw [lt_div_iff₀ hpi0]
    nlinarith
  linarith

/-- Claim C3 amended.  unprojectCoordinate after projectCoordinate returns
the original (latitude, longitude) EXACTLY (hence within 1e-6 degrees) for
Equirectangular everywhere, and for Mercator whenever |lat| < 85; the
boundary latitudes ±85 of the claimed range hit the pole clamp and fail (see
the counterexample). -/
theorem unproject_project_roundtrip (lat lon : ℝ) :
    unprojectCoordinate MapProjection.Equirectangular
      (projectCoordinate MapProjection.Equirectangular lat lon) = (lon, lat) ∧
    (|lat| < 85 →
      unprojectCoordinate MapProjection.Mercator
        (projectCoordinate MapProjection.Mercator lat lon) = (lon, lat)) := by
  constructor
  · rfl
  · intro habs
    have hpi0 : (0 : ℝ) < π := Real.pi_pos
    have hpiz : π ≠ 0 := ne_of_gt hpi0
    obtain ⟨hlat1, hlat2⟩ := abs_lt.mp habs
    unfold projectCoordinate mercatorProjection unprojectCoordinate
    rw [if_pos habs]
    simp only
    set θ : ℝ := π / 4 + lat * π / 180 / 2 with hθ
    have hθpos : 0 < θ := by rw [hθ]; nlinarith
    have hθlt : θ < π / 2 := by rw [hθ]; nlinarith
    have htanpos : 0 < Real.tan θ := Real.tan_pos_of_pos_of_lt_pi_div_two hθpos hθlt
    have harg : Real.log (Real.tan θ) * 180 / π * π / 180 = Real.log (Real.tan θ) := by
      field_simp
    have hθgt : -(π / 2) < θ := lt_trans (by linarith : -(π / 2) < (0 : ℝ)) hθpos
    rw [harg, Real.exp_log htanpos, Real.arctan_tan hθgt hθlt]
    have hlat : (2 * θ - π / 2) * 180 / π = lat := by
      rw [hθ]
      field_simp
      ring
    rw [hlat]

/-- Witness for the amended C3 statement: the round trip at the concrete
in-range point (lat 0, lon 0), in both Equirectangular and Mercator modes. -/
theorem unproject_project_roundtrip_witness :
    unprojectCoordinate MapProjection.Equirectangular
      (projectCoordinate MapProjection.Equirectangular 0 0) = ((0 : ℝ), (0 : ℝ)) ∧
    unprojectCoordinate MapProjection.Mercator
      (projectCoordinate MapProjection.Mercator 0 0) = ((0 : ℝ), (0 : ℝ)) :=
  ⟨(unproject_project_roundtrip 0 0).1,
   (unproject_project_roundtrip 0 0).2 (by norm_num)⟩

end EqMap

namespace EqMap

/-- A list entry found by position is a member. -/
theorem mem_of_getElem_opt {α : Type} {l : List α} {n : ℕ} {a : α}
    (h : l[n]? = some a) : a ∈ l := by
  obtain ⟨hn, rfl⟩ := List.getElem?_eq_some.mp h
  exact List.getElem_mem hn

/-- Characterization of the findEarthquakeAt loop, for any starting
accumulator: a `none` result means the accumulator was empty and no list
entry qualifies; a `some` result is either the untouched accumulator (then no
entry beats it) or the first entry realizing the minimum distance among
qualifying entries (strictly beating the accumulator). -/
theorem findLoop_char (scale : ℚ) (p : PointQ) :
    ∀ (ms : List (ℕ × VisualEarthquakeQ)) (best : Option (ℕ × ℚ)),
      (findLoop scale p ms best = none →
        best = none ∧ ∀ im ∈ ms, hitCandidate scale p im.2 = false) ∧
      (∀ kd, findLoop scale p ms best = some kd →
        (best = some kd ∧ ∀ im ∈ ms, hitCandidate scale p im.2 = true →
            kd.2 ≤ dist2 p im.2.screenPos) ∨
        (∃ (a : ℕ) (im : ℕ × VisualEarthquakeQ), ms[a]? = some im ∧ kd.1 = im.1 ∧
            hitCandidate scale p im.2 = true ∧
            kd.2 = dist2 p im.2.screenPos ∧
            (∀ bd, best = some bd → kd.2 < bd.2) ∧
            (∀ (b : ℕ) (jm : ℕ × VisualEarthquakeQ), ms[b]? = some jm →
              hitCandidate scale p jm.2 = true →
              kd.2 ≤ dist2 p jm.2.screenPos ∧
              (dist2 p jm.2.screenPos ≤ kd.2 → a ≤ b)))) := by
  intro ms
  induction ms with
  | nil =>
    intro best
    constructor
    · intro h
      simp only [findLoop] at h
      exact ⟨h, by simp⟩
    · intro kd h
      simp only [findLoop] at h
      exact Or.inl ⟨h, by simp⟩
  | cons hd rest ih =>
    obtain ⟨i, m⟩ := hd
    intro best
    by_cases hcond : (hitCandidate scale p m &&
        (match best with
         | none => true
         | some kd => decide (dist2 p m.screenPos < kd.2))) = true
    · -- the head replaces the accumulator
      rw [Bool.and_eq_true] at hcond
      obtain ⟨hm, hb⟩ := hcond
      have hbeats : ∀ bd, best = some bd → dist2 p m.screenPos < bd.2 := by
        intro bd hbd
        rw [hbd] at hb
        exact of_decide_eq_true hb
      have hstep : findLoop scale p ((i, m) :: rest) best =
          findLoop scale p rest (some (i, dist2 p m.screenPos)) := by
        simp only [findLoop]
        rw [if_pos]
        rw [Bool.and_eq_true]
        exact ⟨hm, hb⟩
      have ihs := ih (some (i, dist2 p m.screenPos))
      constructor
      · intro h
        rw [hstep] at h
        exact absurd (ihs.1 h).1 (by simp)
      · intro kd h
        rw [hstep] at h
        rcases ihs.2 kd h with ⟨hbesteq, hall⟩ | ⟨a, im', hget, hfst, hcand, hd2, hstrict, hmin⟩
        · -- the head itself is the winner
          injection hbesteq with hkd
          subst hkd
          refine Or.inr ⟨0, (i, m), by simp, rfl, hm, rfl, ?_, ?_⟩
          · intro bd hbd
            exact hbeats bd hbd
          · intro b jm hget' hc
            cases b with
            | zero =>
              simp only [List.getElem?_cons_zero, Option.some.injEq] at hget'
              subst hget'
              exact ⟨le_refl _, fun _ => le_refl 0⟩
            | succ b' =>
              simp only [List.getElem?_cons_succ] at hget'
              have hmem : jm ∈ rest := mem_of_getElem_opt hget'
              exact ⟨hall jm hmem hc, fun _ => Nat.zero_le _⟩
        · -- the winner comes from the tail and beat the head
          have hlt : kd.2 < dist2 p m.screenPos := hstrict (i, dist2 p m.screenPos) rfl
          refine Or.inr ⟨a + 1, im', by simpa using hget, hfst, hcand, hd2, ?_, ?_⟩
          · intro bd hbd
            exact lt_trans hlt (hbeats bd hbd)
          · intro b jm hget' hc
            cases b with
            | zero =>
              simp only [List.getElem?_cons_zero, Option.some.injEq] at hget'
              subst hget'
              exact ⟨le_of_lt hlt, fun hle => absurd (lt_of_le_of_lt hle hlt) (lt_irrefl _)⟩
            | succ b' =>
              simp only [List.getElem?_cons_succ] at hget'
              obtain ⟨h1, h2⟩ := hmin b' jm hget' hc
              exact ⟨h1, fun hle => Nat.succ_le_succ (h2 hle)⟩
    · -- the head is skipped
      rw [Bool.not_eq_true] at hcond
      have hstep : findLoop scale p ((i, m) :: rest) best =
          findLoop scale p rest best := by
        simp only [findLoop]
        rw [if_neg]
        rw [hcond]
        simp
      have ihs := ih best
      have hheadskip : hitCandidate scale p m = true →
          ∃ bd, best = some bd ∧ bd.2 ≤ dist2 p m.screenPos := by
        intro hm
        cases hbest : best with
        | none =>
          rw [hm, hbest] at hcond
          simp at hcond
        | some bd =>
          rw [hm, hbest] at hcond
          simp only [Bool.true_and] at hcond
          refine ⟨bd, rfl, ?_⟩
          have := of_decide_eq_false hcond
          linarith [not_lt.mp this]
      constructor
      · intro h
        rw [hstep] at h
        obtain ⟨hnone, hall⟩ := ihs.1 h
        refine ⟨hnone, ?_⟩
        intro im hmem
        rcases List.mem_cons.mp hmem with rfl | hmem'
        · by_contra hne
          rw [Bool.not_eq_false] at hne
          obtain ⟨bd, hbd, _⟩ := hheadskip hne
          rw [hnone] at hbd
          exact Option.noConfusion hbd
        · exact hall im hmem'
      · intro kd h
        rw [hstep] at h
        rcases ihs.2 kd h with ⟨hbesteq, hall⟩ | ⟨a, im', hget, hfst, hcand, hd2, hstrict, hmin⟩
        · refine Or.inl ⟨hbesteq, ?_⟩
          intro im hmem hc
          rcases List.mem_cons.mp hmem with rfl | hmem'
          · obtain ⟨bd, hbd, hble⟩ := hheadskip hc
            rw [hbesteq] at hbd
            injection hbd with hbd'
            rw [← hbd'] at hble
            exact hble
          · exact hall im hmem' hc
        · refine Or.inr ⟨a + 1, im', by simpa using hget, hfst, hcand, hd2, ?_, ?_⟩
          · intro bd hbd
            exact hstrict bd hbd
          · intro b jm hget' hc
            cases b with
            | zero =>
              simp only [List.getElem?_cons_zero, Option.some.injEq] at hget'
              subst hget'
              obtain ⟨bd, hbd, hble⟩ := hheadskip hc
              have hlt : kd.2 < bd.2 := hstrict bd hbd
              refine ⟨le_trans (le_of_lt hlt) hble, fun hle => ?_⟩
              exact absurd (lt_of_le_of_lt hle (lt_of_lt_of_le hlt hble)) (lt_irrefl _)
            | succ b' =>
              simp only [List.getElem?_cons_succ] at hget'
              obtain ⟨h1, h2⟩ := hmin b' jm hget' hc
              exact ⟨h1, fun hle => Nat.succ_le_succ (h2 hle)⟩

end EqMap

namespace EqMap

/-- Claim C5 counterexample.  Two failures of the claim as stated.
Tie-break: the two tie markers are both visible, qualifying, and exactly
10 px from the query point, yet findEarthquakeAt returns index 0, the
EARLIER marker (the loop requires `distance < minDistance` strictly, so a
later equal-distance candidate never replaces the incumbent), while the
claim requires the later one.  Threshold: the claim's radius is
`displaySize/2 + 5`; the code uses the zoom-scaled size
`getScaledSize(displaySize)/2 + 5`.  At zoom 4 the scale factor
`qBound(0.5, sqrt 4, 3)` is 2, and the marker 12 px away with displaySize 10
is outside the claimed radius (10) but is still returned. -/
theorem findEarthquakeAt_counterexample :
    findEarthquakeAt tieMarkers 1 { x := 0, y := 0 } = some 0 ∧
    dist2 { x := 0, y := 0 } (sampleMarker 0 10 0 20).screenPos =
      dist2 { x := 0, y := 0 } (sampleMarker 1 (-10) 0 20).screenPos ∧
    findEarthquakeAt farMarker 2 { x := 0, y := 0 } = some 0 ∧
    ((10 : ℚ) / 2 + 5) ^ 2 < dist2 { x := 0, y := 0 } (sampleMarker 0 12 0 10).screenPos ∧
    qBoundR 0.5 (Real.sqrt 4) 3 = 2 := by
  refine ⟨?_, ?_, ?_, ?_, ?_⟩
  · norm_num [findEarthquakeAt, findLoop, tieMarkers, sampleMarker, sampleData,
      hitCandidate, dist2, List.enum, List.enumFrom]
  · norm_num [dist2, sampleMarker]
  · norm_num [findEarthquakeAt, findLoop, farMarker, sampleMarker, sampleData,
      hitCandidate, dist2, List.enum, List.enumFrom]
  · norm_num [dist2, sampleMarker]
  · rw [show (4 : ℝ) = 2 ^ 2 by norm_num, Real.sqrt_sq (by norm_num : (0 : ℝ) ≤ 2)]
    unfold qBoundR
    norm_num

/-- Claim C5 amended.  findEarthquakeAt considers only visible markers,
qualifies a marker exactly when the squared screen distance is within the
squared radius `getScaledSize(displaySize)/2 + 5` (hitCandidate), returns
`none` iff no marker qualifies, and otherwise returns a qualifying marker of
minimum distance; when several qualifying markers realize the minimum
distance it returns the EARLIEST in the record ordering. -/
theorem findEarthquakeAt_spec (markers : List VisualEarthquakeQ) (scale : ℚ)
    (p : PointQ) :
    (findEarthquakeAt markers scale p = none ↔
      ∀ (i : ℕ) (m : VisualEarthquakeQ), markers[i]? = some m →
        hitCandidate scale p m = false) ∧
    (∀ k, findEarthquakeAt markers scale p = some k →
      ∃ m, markers[k]? = some m ∧ hitCandidate scale p m = true ∧
        ∀ (j : ℕ) (mj : VisualEarthquakeQ), markers[j]? = some mj →
          hitCandidate scale p mj = true →
          dist2 p m.screenPos ≤ dist2 p mj.screenPos ∧
          (dist2 p mj.screenPos ≤ dist2 p m.screenPos → k ≤ j)) := by
  have hchar := findLoop_char scale p markers.enum none
  constructor
  · constructor
    · intro h i m hget
      have hnone : findLoop scale p markers.enum none = none := by
        unfold findEarthquakeAt at h
        exact Option.map_eq_none'.mp h
      have hall := (hchar.1 hnone).2
      have henum : (markers.enum)[i]? = some (i, m) := by
        rw [List.getElem?_enum, hget, Option.map_some']
      exact hall (i, m) (mem_of_getElem_opt henum)
    · intro hallnone
      cases hres : findEarthquakeAt markers scale p with
      | none => rfl
      | some k =>
        exfalso
        unfold findEarthquakeAt at hres
        obtain ⟨kd, hkd, _⟩ := Option.map_eq_some'.mp hres
        rcases hchar.2 kd hkd with ⟨hcontra, _⟩ | ⟨a, im, hget, _, hcand, _, _, _⟩
        · exact Option.noConfusion hcontra
        · rw [List.getElem?_enum] at hget
          obtain ⟨m', hm', him⟩ := Option.map_eq_some'.mp hget
          have := hallnone a m' hm'
          rw [← him] at hcand
          simp only at hcand
          rw [this] at hcand
          exact Bool.noConfusion hcand
  · intro k hres
    unfold findEarthquakeAt at hres
    obtain ⟨kd, hkd, hk⟩ := Option.map_eq_some'.mp hres
    rcases hchar.2 kd hkd with ⟨hcontra, _⟩ | ⟨a, im, hget, hfst, hcand, hd2, _, hmin⟩
    · exact Option.noConfusion hcontra
    · rw [List.getElem?_enum] at hget
      obtain ⟨m', hm', him⟩ := Option.map_eq_some'.mp hget
      have hima : im.1 = a := by rw [← him]
      have himm : im.2 = m' := by rw [← him]
      have hka : k = a := by rw [← hk, hfst, hima]
      refine ⟨m', by rw [hka]; exact hm', by rw [← himm]; exact hcand, ?_⟩
      intro j mj hgetj hcandj
      have henumj : (markers.enum)[j]? = some (j, mj) := by
        rw [List.getElem?_enum, hgetj, Option.map_some']
      obtain ⟨h1, h2⟩ := hmin j (j, mj) henumj hcandj
      rw [hd2, himm] at h1 h2
      exact ⟨h1, fun hle => by rw [hka]; exact h2 hle⟩

/-- Witness for the amended C5 statement: applying it to the two tie markers
at the origin query point returns marker 0, which is a minimum-distance
qualifying candidate. -/
theorem findEarthquakeAt_spec_witness :
    ∃ m, tieMarkers[0]? = some m ∧
      hitCandidate 1 { x := 0, y := 0 } m = true ∧
      ∀ (j : ℕ) (mj : VisualEarthquakeQ), tieMarkers[j]? = some mj →
        hitCandidate 1 { x := 0, y := 0 } mj = true →
        dist2 { x := 0, y := 0 } m.screenPos ≤ dist2 { x := 0, y := 0 } mj.screenPos ∧
        (dist2 { x := 0, y := 0 } mj.screenPos ≤ dist2 { x := 0, y := 0 } m.screenPos →
          0 ≤ j) :=
  (findEarthquakeAt_spec tieMarkers 1 { x := 0, y := 0 }).2 0
    (by norm_num [findEarthquakeAt, findLoop, tieMarkers, sampleMarker, sampleData,
      hitCandidate, dist2, List.enum, List.enumFrom])

end EqMap
namespace EqMap

/-- The start-time rejection test fails exactly when every set start bound
is at or before the record's timestamp. -/
theorem timeBeforeStart_false_iff (f : FilterStateQ) (d : EarthquakeDataQ) :
    timeBeforeStart f d = false ↔ ∀ s, f.startTime = some s → s ≤ d.timestamp := by
  unfold timeBeforeStart
  cases h : f.startTime with
  | none => simp
  | some s => simp [decide_eq_false_iff_not, not_lt]

/-- The end-time rejection test fails exactly when every set end bound is at
or after the record's timestamp. -/
theorem timeAfterEnd_false_iff (f : FilterStateQ) (d : EarthquakeDataQ) :
    timeAfterEnd f d = false ↔ ∀ e, f.endTime = some e → d.timestamp ≤ e := by
  unfold timeAfterEnd
  cases h : f.endTime with
  | none => simp
  | some e => simp [decide_eq_false_iff_not, not_lt]

/-- The early-return chain of passesFilters is the conjunction of the four
filter predicates. -/
theorem passesFilters_eq_true_iff (f : FilterStateQ) (d : EarthquakeDataQ) :
    passesFilters f d = true ↔
      (f.minMagnitude ≤ d.magnitude ∧ d.magnitude ≤ f.maxMagnitude) ∧
      (f.minDepth ≤ d.depth ∧ d.depth ≤ f.maxDepth) ∧
      timeBeforeStart f d = false ∧ timeAfterEnd f d = false ∧
      (f.hasLocationFilter = true →
        f.locationFilter.contains d.latitude d.longitude = true) := by
  unfold passesFilters
  split_ifs with h1 h2 h3 h4 h5 <;>
    simp_all [Bool.or_eq_true, decide_eq_true_eq, not_or, not_lt,
      Bool.and_eq_true, Bool.not_eq_true']
  · intro ha hb _ _ _ _
    rcases h1 with h | h
    · exact absurd h (not_lt.mpr ha)
    · exact absurd h (not_lt.mpr hb)
  · intro ha hb _ _
    rcases h2 with h | h
    · exact absurd h (not_lt.mpr ha)
    · exact absurd h (not_lt.mpr hb)

/-- Claim C6.  After updateVisibleEarthquakes, a marker's visible flag is
true if and only if the record is inside the visible bounds AND its magnitude
is within [minMagnitude, maxMagnitude] AND its depth within
[minDepth, maxDepth] AND (each set time bound is respected) AND (if the
location filter is set, the record is inside the filter rectangle); an unset
bound is unconstrained.  Consequently a record failing any single one of the
predicates is never visible regardless of the others. -/
theorem updateVisibleEarthquakes_visible_iff
    (v : ViewportQ) (b : MapBounds) (f : FilterStateQ)
    (sizeFn : EarthquakeDataQ → ℚ) (colorFn : EarthquakeDataQ → ColorQ)
    (markers : List VisualEarthquakeQ) (i : ℕ) (m : VisualEarthquakeQ)
    (hget : (updateVisibleEarthquakes v b f sizeFn colorFn markers)[i]? = some m) :
    m.isVisible = true ↔
      (b.contains m.data.latitude m.data.longitude = true ∧
       (f.minMagnitude ≤ m.data.magnitude ∧ m.data.magnitude ≤ f.maxMagnitude) ∧
       (f.minDepth ≤ m.data.depth ∧ m.data.depth ≤ f.maxDepth) ∧
       (∀ s, f.startTime = some s → s ≤ m.data.timestamp) ∧
       (∀ e, f.endTime = some e → m.data.timestamp ≤ e) ∧
       (f.hasLocationFilter = true →
         f.locationFilter.contains m.data.latitude m.data.longitude = true)) := by
  unfold updateVisibleEarthquakes at hget
  rw [List.getElem?_map] at hget
  obtain ⟨m0, hm0, hm⟩ := Option.map_eq_some'.mp hget
  subst hm
  simp only
  rw [Bool.and_eq_true, isEarthquakeVisible, passesFilters_eq_true_iff,
    timeBeforeStart_false_iff, timeAfterEnd_false_iff]

/-- Witness for C6: an in-bounds record passing the unconstrained filter is
flagged visible. -/
theorem updateVisibleEarthquakes_visible_iff_witness :
    ∃ m, (updateVisibleEarthquakes plainViewport
        { minLatitude := -90, maxLatitude := 90
          minLongitude := -180, maxLongitude := 180 }
        { minMagnitude := 0, maxMagnitude := 10, minDepth := 0, maxDepth := 700
          startTime := none, endTime := none, hasLocationFilter := false
          locationFilter := { minLatitude := 0, maxLatitude := 0
                              minLongitude := 0, maxLongitude := 0 } }
        (fun _ => 8) (fun d => getMagnitudeColor d.magnitude)
        [consistentMarker])[0]? = some m ∧ m.isVisible = true := by
  have hget : (updateVisibleEarthquakes plainViewport
      { minLatitude := -90, maxLatitude := 90
        minLongitude := -180, maxLongitude := 180 }
      { minMagnitude := 0, maxMagnitude := 10, minDepth := 0, maxDepth := 700
        startTime := none, endTime := none, hasLocationFilter := false
        locationFilter := { minLatitude := 0, maxLatitude := 0
                            minLongitude := 0, maxLongitude := 0 } }
      (fun _ => 8) (fun d => getMagnitudeColor d.magnitude)
      [consistentMarker])[0]? = some
        { consistentMarker with
          screenPos := latLonToScreenQ plainViewport 10 20
          isVisible := isEarthquakeVisible
              { minLatitude := -90, maxLatitude := 90
                minLongitude := -180, maxLongitude := 180 } (sampleData 7 10 20) &&
            passesFilters
              { minMagnitude := 0, maxMagnitude := 10, minDepth := 0, maxDepth := 700
                startTime := none, endTime := none, hasLocationFilter := false
                locationFilter := { minLatitude := 0, maxLatitude := 0
                                    minLongitude := 0, maxLongitude := 0 } }
              (sampleData 7 10 20)
          displaySize := 8
          displayColor := getMagnitudeColor 5 } := by
    simp [updateVisibleEarthquakes, consistentMarker, sampleData, getMagnitudeColor]
  refine ⟨_, hget, ?_⟩
  apply (updateVisibleEarthquakes_visible_iff plainViewport _ _ _ _ [consistentMarker]
    0 _ hget).mpr
  refine ⟨?_, ⟨?_, ?_⟩, ⟨?_, ?_⟩, ?_, ?_, ?_⟩ <;>
    first
    | (intro x hx; exact Option.noConfusion hx)
    | (intro hx; exact Bool.noConfusion hx)
    | norm_num [MapBounds.contains, consistentMarker, sampleData]

end EqMap

namespace EqMap

/-- Under unique event ids, erasing the first matching marker removes every
matching marker: the loop result is the id-free sublist, element for
element. -/
theorem removeFirstMarker_eq_filter (eventId : ℕ) :
    ∀ (markers : List VisualEarthquakeQ),
      (markers.map (fun m => m.data.eventId)).Nodup →
      removeFirstMarker eventId markers =
        markers.filter (fun m => m.data.eventId != eventId) := by
  intro markers
  induction markers with
  | nil => intro _; rfl
  | cons m rest ih =>
    intro hnd
    rw [List.map_cons, List.nodup_cons] at hnd
    obtain ⟨hnotin, hrest⟩ := hnd
    by_cases h : m.data.eventId = eventId
    · rw [removeFirstMarker, if_pos h, List.filter_cons_of_neg (by simp [h])]
      symm
      apply List.filter_eq_self.mpr
      intro a ha
      simp only [bne_iff_ne, ne_eq, decide_eq_true_eq]
      intro hcontra
      rw [← h] at hcontra
      exact hnotin (hcontra ▸ List.mem_map_of_mem (fun x => x.data.eventId) ha)
    · rw [removeFirstMarker, if_neg h, List.filter_cons_of_pos (by simp [h]),
        ih hrest]

/-- Claim C10.  After removeEarthquake(id) on a marker set with unique event
ids: no marker with that id remains; every other marker (with all its flags,
including selection) survives unchanged and in order - the result is exactly
the id-free sublist; the id is no longer in the selected-id list; and every
other selected id is retained. -/
theorem removeEarthquake_spec (markers : List VisualEarthquakeQ)
    (sel : List ℕ) (eventId : ℕ)
    (hnd : (markers.map (fun m => m.data.eventId)).Nodup) :
    (∀ m ∈ (removeEarthquake eventId markers sel).1, m.data.eventId ≠ eventId) ∧
    (removeEarthquake eventId markers sel).1 =
      markers.filter (fun m => m.data.eventId != eventId) ∧
    eventId ∉ (removeEarthquake eventId markers sel).2 ∧
    (∀ s : ℕ, s ≠ eventId →
      ((s ∈ (removeEarthquake eventId markers sel).2) ↔ s ∈ sel)) := by
  unfold removeEarthquake
  simp only
  rw [removeFirstMarker_eq_filter eventId markers hnd]
  refine ⟨?_, rfl, ?_, ?_⟩
  · intro m hm
    have := List.of_mem_filter hm
    simpa using this
  · intro hmem
    have := List.of_mem_filter hmem
    simp at this
  · intro s hs
    constructor
    · intro hmem
      exact List.mem_of_mem_filter hmem
    · intro hmem
      exact List.mem_filter.mpr ⟨hmem, by simpa using hs⟩

/-- Witness for C10 at a concrete state: removing record 7 from a two-marker
set with selection [7, 3] erases exactly the matching marker and drops 7 from
the selection while keeping 3. -/
theorem removeEarthquake_spec_witness :
    (removeEarthquake 7 [sampleMarker 0 0 0 8, consistentMarker] [7, 3]).1 =
      ([sampleMarker 0 0 0 8, consistentMarker].filter
        (fun m => m.data.eventId != 7)) ∧
    7 ∉ (removeEarthquake 7 [sampleMarker 0 0 0 8, consistentMarker] [7, 3]).2 ∧
    ((3 ∈ (removeEarthquake 7 [sampleMarker 0 0 0 8, consistentMarker] [7, 3]).2) ↔
      3 ∈ ([7, 3] : List ℕ)) := by
  have h := removeEarthquake_spec [sampleMarker 0 0 0 8, consistentMarker] [7, 3] 7
    (by simp [sampleMarker, sampleData, consistentMarker])
  exact ⟨h.2.1, h.2.2.1, h.2.2.2 3 (by norm_num)⟩

end EqMap
